/-
Verification of the desktop navigator backend (`src/desktop/src/backends/navigator.rs`).

This file gives a shallow embedding of the backend's code into Lean:

* The socket transport (`TcpSocket`, `process_next_message`, `poll`) is embedded as a
  pure state machine.  The outcomes of the non-blocking OS read/write calls are
  inputs to each tick (`WriteEvent`, `ReadEvent`), exactly mirroring the match arms
  of the Rust code; the byte stream is a `List Nat`.
* The URL machinery (the `url` crate's `join`, `PathSegmentsMut` operations used by
  the constructor, `set_scheme`, `set_query`, `to_file_path`) is embedded over a
  structured `Url` record; relative references are pre-parsed `UrlRef` values.
* The fetch service is embedded with the filesystem and the HTTP client as oracles
  (functions / values passed in), since those are external capabilities.
-/
import Mathlib

namespace RuffleNav

/-! ## Socket transport (`TcpSocket` in navigator.rs) -/

/-- State of `TcpSocket`: `stream: Option<TcpStream>` is modelled by the `connected`
flag (the live OS handle itself carries no modelled state); `pending_write: Vec<u8>`
and `pending_read: VecDeque<u8>` are byte lists. -/
structure TcpSocket where
  connected : Bool
  pending_write : List Nat
  pending_read : List Nat
deriving DecidableEq, Repr

/-- Outcome of the single non-blocking `stream.write(&self.pending_write)` attempt of a
tick, as matched by the Rust code: `Err(WouldBlock)`, any other `Err`, or `Ok(written)`
(where `Ok(0)` is fatal). -/
inductive WriteEvent where
  | wouldBlock
  | writeErr
  | wrote (n : Nat)
deriving DecidableEq, Repr

/-- Outcome of the single non-blocking `stream.read(&mut buffer)` attempt of a tick:
`Err(WouldBlock)`, any other `Err`, or `Ok(read)` delivering the bytes read
(`readOk []` is `Ok(0)`, the peer-closed case). -/
inductive ReadEvent where
  | wouldBlock
  | readErr
  | readOk (chunk : List Nat)
deriving DecidableEq, Repr

/-- `fn process_next_message(pending_read: &mut VecDeque<u8>) -> Option<Vec<u8>>`:
find the first zero byte; the bytes before it are drained as the message, the
separator is popped, the rest is retained.  Returns the extracted message (if any)
together with the new buffer contents. -/
def process_next_message (pending_read : List Nat) : Option (List Nat) × List Nat :=
  match pending_read.findIdx? (fun b => b == 0) with
  | some index => (some (pending_read.take index), pending_read.drop (index + 1))
  | none => (none, pending_read)

/-- Step 1 of `TcpSocket::poll`: if pending-write bytes exist, attempt one write.
`none` means the fatal arm `Err(_) | Ok(0)` was taken (stream dropped, tick aborted);
`some s'` is the state in which the tick continues. -/
def write_phase (s : TcpSocket) (w : WriteEvent) : Option TcpSocket :=
  if s.pending_write.isEmpty then some s
  else
    match w with
    | .wouldBlock => some s
    | .writeErr => none
    | .wrote 0 => none
    | .wrote (n + 1) => some { s with pending_write := s.pending_write.drop (n + 1) }

/-- Steps 2-3 of `TcpSocket::poll`: extract a buffered message if present; otherwise
perform one bounded read and retry the extraction once on the extended buffer. -/
def read_phase (s1 : TcpSocket) (r : ReadEvent) : Option (List Nat) × TcpSocket :=
  match process_next_message s1.pending_read with
  | (some msg, rest) => (some msg, { s1 with pending_read := rest })
  | (none, _) =>
    match r with
    | .wouldBlock => (none, s1)
    | .readErr => (none, { s1 with connected := false })
    | .readOk [] => (none, { s1 with connected := false })
    | .readOk (x :: xs) =>
      match process_next_message (s1.pending_read ++ x :: xs) with
      | (some msg, rest) => (some msg, { s1 with pending_read := rest })
      | (none, _) => (none, { s1 with pending_read := s1.pending_read ++ x :: xs })

/-- `TcpSocket::poll`: the single non-blocking tick.  Returns the extracted message
(at most one) and the successor state.  A disconnected socket does nothing. -/
def TcpSocket.poll (s : TcpSocket) (w : WriteEvent) (r : ReadEvent) :
    Option (List Nat) × TcpSocket :=
  if s.connected then
    match write_phase s w with
    | none => (none, { s with connected := false })
    | some s1 => read_phase s1 r
  else (none, s)

/-- `TcpSocket::is_connected`: `Some(self.stream.is_some())`. -/
def TcpSocket.is_connected (s : TcpSocket) : Option Bool :=
  some s.connected

/-- `TcpSocket::send`: append to the pending-write buffer only while connected. -/
def TcpSocket.send (s : TcpSocket) (buf : List Nat) : TcpSocket :=
  if s.connected then { s with pending_write := s.pending_write ++ buf } else s

/-- `TcpSocket::connect(host, port)`: the outcomes of the blocking
`TcpStream::connect` and of `set_nonblocking(true)` are the two oracle booleans; the
stream handle is kept only if both succeed.  Buffers start empty.  No error is ever
raised to the caller. -/
def TcpSocket.connect (connect_ok : Bool) (set_nonblocking_ok : Bool) : TcpSocket :=
  { connected := connect_ok && set_nonblocking_ok
    pending_write := []
    pending_read := [] }

/-- `ExternalNavigatorBackend::connect_socket`: always `Some(Box::new(TcpSocket::connect(..)))`. -/
def connect_socket (connect_ok : Bool) (set_nonblocking_ok : Bool) : Option TcpSocket :=
  some (TcpSocket.connect connect_ok set_nonblocking_ok)

/-- Run a sequence of `poll` ticks, collecting each tick's result. -/
def runPolls : TcpSocket → List (WriteEvent × ReadEvent) → List (Option (List Nat)) × TcpSocket
  | s, [] => ([], s)
  | s, (w, r) :: evs =>
    match s.poll w r with
    | (m, s') =>
      match runPolls s' evs with
      | (ms, sf) => (m :: ms, sf)

/-! ### Driver for the framing claim (C1)

The driver feeds a fixed queue of network chunks to `poll`: the next chunk is
delivered exactly when the tick would actually issue the `read` syscall (i.e. when
the socket is connected, has no pending writes and no already-buffered message);
otherwise the chunk stays queued, as bytes stay in the kernel buffer. -/

/-- Whether the next `poll` tick will reach the `stream.read` call. -/
def willRead (s : TcpSocket) : Bool :=
  s.connected && s.pending_write.isEmpty && ((process_next_message s.pending_read).1).isNone

/-- A socket together with the queue of not-yet-delivered network chunks. -/
structure SocketRun where
  sock : TcpSocket
  chunks : List (List Nat)
deriving DecidableEq, Repr

/-- One driven tick: `poll` with the next chunk when the tick will read, with
`WouldBlock` otherwise. -/
def stepRun (d : SocketRun) : Option (List Nat) × SocketRun :=
  match d.chunks with
  | [] =>
    match d.sock.poll .wouldBlock .wouldBlock with
    | (m, s') => (m, ⟨s', []⟩)
  | c :: rest =>
    if willRead d.sock then
      match d.sock.poll .wouldBlock (.readOk c) with
      | (m, s') => (m, ⟨s', rest⟩)
    else
      match d.sock.poll .wouldBlock .wouldBlock with
      | (m, s') => (m, ⟨s', c :: rest⟩)

/-- Repeatedly call `poll` (via the driver) `fuel` times, collecting the extracted
messages in order. -/
def drainRun : SocketRun → Nat → List (List Nat)
  | _, 0 => []
  | d, fuel + 1 =>
    match stepRun d with
    | (some msg, d') => msg :: drainRun d' fuel
    | (none, d') => drainRun d' fuel

/-- The wire encoding of a message list: each message followed by a single zero byte. -/
def encode (msgs : List (List Nat)) : List Nat :=
  (msgs.map (fun m => m ++ [0])).flatten

/-! ## Socket lemmas -/

lemma write_phase_some {s : TcpSocket} {w : WriteEvent} {s1 : TcpSocket}
    (h : write_phase s w = some s1) :
    s1.connected = s.connected ∧ s1.pending_read = s.pending_read := by
  unfold write_phase at h
  split at h
  · cases h
    exact ⟨rfl, rfl⟩
  · cases w with
    | wouldBlock => cases h; exact ⟨rfl, rfl⟩
    | writeErr => cases h
    | wrote n =>
      cases n with
      | zero => cases h
      | succ k => cases h; exact ⟨rfl, rfl⟩

lemma write_phase_empty {s : TcpSocket} (h : s.pending_write = []) (w : WriteEvent) :
    write_phase s w = some s := by
  unfold write_phase
  simp [h]

lemma process_fst_none {b : List Nat} (h : (process_next_message b).1 = none) :
    process_next_message b = (none, b) := by
  unfold process_next_message at h ⊢
  cases hf : b.findIdx? (fun x => x == 0) with
  | none => rfl
  | some i => rw [hf] at h; cases h

lemma read_phase_disj (s1 : TcpSocket) (r : ReadEvent) :
    (read_phase s1 r).2.connected = s1.connected ∨
    ((read_phase s1 r).1 = none ∧ (read_phase s1 r).2.connected = false) := by
  unfold read_phase
  split
  · left; rfl
  · split
    · left; rfl
    · right; exact ⟨rfl, rfl⟩
    · right; exact ⟨rfl, rfl⟩
    · split
      · left; rfl
      · left; rfl

lemma poll_disconnected {s : TcpSocket} (h : s.connected = false)
    (w : WriteEvent) (r : ReadEvent) : s.poll w r = (none, s) := by
  simp [TcpSocket.poll, h]

lemma poll_disj (s : TcpSocket) (w : WriteEvent) (r : ReadEvent) :
    (s.poll w r).2.connected = s.connected ∨
    ((s.poll w r).1 = none ∧ (s.poll w r).2.connected = false) := by
  by_cases hc : s.connected = true
  · unfold TcpSocket.poll
    rw [if_pos hc]
    cases hw : write_phase s w with
    | none => exact Or.inr ⟨rfl, rfl⟩
    | some s1 =>
      rcases read_phase_disj s1 r with hd | hd
      · left
        rw [hd, (write_phase_some hw).1]
      · right
        exact hd
  · left
    rw [poll_disconnected (by simpa using hc) w r]

lemma poll_fatal_none {s : TcpSocket} {w : WriteEvent} {r : ReadEvent}
    (h : (s.poll w r).2.connected = false) : (s.poll w r).1 = none := by
  by_cases hc : s.connected = true
  · rcases poll_disj s w r with hd | hd
    · rw [h] at hd
      rw [hc] at hd
      cases hd
    · exact hd.1
  · rw [poll_disconnected (by simpa using hc) w r]

/-! ## Framing lemmas (towards C1) -/

lemma findIdx?_zero (m b' : List Nat) (hm : (0 : Nat) ∉ m) :
    (m ++ 0 :: b').findIdx? (fun b => b == 0) = some m.length := by
  induction m with
  | nil => simp [List.findIdx?_cons]
  | cons a m ih =>
    have ha : (a == 0) = false := by
      simp only [beq_eq_false_iff_ne, ne_eq]
      intro h
      exact hm (by simp [h])
    have hm' : (0 : Nat) ∉ m := fun h => hm (List.mem_cons_of_mem a h)
    rw [List.cons_append, List.findIdx?_cons, ha]
    simp [List.findIdx?_succ, ih hm']

lemma process_extract (m b' : List Nat) (hm : (0 : Nat) ∉ m) :
    process_next_message (m ++ 0 :: b') = (some m, b') := by
  unfold process_next_message
  rw [findIdx?_zero m b' hm]
  have ht : (m ++ 0 :: b').take m.length = m := List.take_left m (0 :: b')
  have hd : (m ++ 0 :: b').drop (m.length + 1) = b' := by
    have h1 : m ++ 0 :: b' = (m ++ [0]) ++ b' := by simp
    have hl : (m ++ [0]).length = m.length + 1 := by simp
    rw [h1, ← hl]
    exact List.drop_left (m ++ [0]) b'
  show (some ((m ++ 0 :: b').take m.length), (m ++ 0 :: b').drop (m.length + 1)) = (some m, b')
  rw [ht, hd]

lemma process_none_of_not_mem {b : List Nat} (h : (0 : Nat) ∉ b) :
    process_next_message b = (none, b) := by
  unfold process_next_message
  have hf : b.findIdx? (fun x => x == 0) = none := by
    rw [List.findIdx?_eq_none_iff]
    intro x hx
    simp only [beq_eq_false_iff_ne, ne_eq]
    intro h0
    exact h (h0 ▸ hx)
  rw [hf]

lemma encode_cons (m : List Nat) (ms : List (List Nat)) :
    encode (m :: ms) = m ++ 0 :: encode ms := by
  simp [encode]

lemma inv_extract {m : List Nat} {ms : List (List Nat)} {b X : List Nat}
    (hm : (0 : Nat) ∉ m) (he : b ++ X = encode (m :: ms)) (hz : (0 : Nat) ∈ b) :
    ∃ b', b = m ++ 0 :: b' ∧ b' ++ X = encode ms ∧
      process_next_message b = (some m, b') := by
  rw [encode_cons] at he
  have hlen : m.length + 1 ≤ b.length := by
    by_contra hlt
    have hble : b.length ≤ m.length := by omega
    have hb : b = m.take b.length := by
      have h1 : (b ++ X).take b.length = b := by
        rw [List.take_append_of_le_length (le_refl _), List.take_length]
      rw [he, List.take_append_of_le_length hble] at h1
      exact h1.symm
    rw [hb] at hz
    exact hm (List.mem_of_mem_take hz)
  have hsplit : b = (m ++ [0]) ++ b.drop (m.length + 1) := by
    have h1 : (b ++ X).take (m.length + 1) = b.take (m.length + 1) :=
      List.take_append_of_le_length hlen
    rw [he] at h1
    have h2 : (m ++ 0 :: encode ms).take (m.length + 1) = m ++ [0] := by
      have ha : m ++ 0 :: encode ms = (m ++ [0]) ++ encode ms := by simp
      have hl : (m ++ [0]).length = m.length + 1 := by simp
      rw [ha, ← hl]
      exact List.take_left _ _
    rw [h2] at h1
    conv_lhs => rw [← List.take_append_drop (m.length + 1) b]
    rw [← h1]
  have hbeq : b = m ++ 0 :: b.drop (m.length + 1) := by simpa using hsplit
  refine ⟨b.drop (m.length + 1), hbeq, ?_, ?_⟩
  · conv_lhs at he => rw [hbeq, List.append_assoc, List.cons_append]
    have h3 := List.append_cancel_left he
    simp only [List.cons.injEq] at h3
    exact h3.2
  · conv_lhs => rw [hbeq]
    exact process_extract m _ hm

/-- The connected socket with nothing pending to write and read buffer `b`. -/
def connSock (b : List Nat) : TcpSocket := ⟨true, [], b⟩

lemma stepRun_buffered {b m rest : List Nat} (cs : List (List Nat))
    (hp : process_next_message b = (some m, rest)) :
    stepRun ⟨connSock b, cs⟩ = (some m, ⟨connSock rest, cs⟩) := by
  have hpoll : ∀ r, (connSock b).poll .wouldBlock r = (some m, connSock rest) := by
    intro r
    simp [TcpSocket.poll, connSock, write_phase, read_phase, hp]
  have hwr : willRead (connSock b) = false := by
    simp [willRead, connSock, hp]
  cases cs with
  | nil => simp [stepRun, hpoll]
  | cons c cs' => simp [stepRun, hwr, hpoll]

lemma stepRun_idle {b : List Nat} (hp : process_next_message b = (none, b)) :
    stepRun ⟨connSock b, []⟩ = (none, ⟨connSock b, []⟩) := by
  simp [stepRun, TcpSocket.poll, connSock, write_phase, read_phase, hp]

lemma stepRun_read_some {b rest m : List Nat} {x : Nat} {xs : List Nat}
    (cs : List (List Nat)) (hp : process_next_message b = (none, b))
    (hq : process_next_message (b ++ x :: xs) = (some m, rest)) :
    stepRun ⟨connSock b, (x :: xs) :: cs⟩ = (some m, ⟨connSock rest, cs⟩) := by
  simp [stepRun, willRead, connSock, hp, TcpSocket.poll, write_phase, read_phase, hq]

lemma stepRun_read_none {b : List Nat} {x : Nat} {xs : List Nat}
    (cs : List (List Nat)) (hp : process_next_message b = (none, b))
    (hq : process_next_message (b ++ x :: xs) = (none, b ++ x :: xs)) :
    stepRun ⟨connSock b, (x :: xs) :: cs⟩ = (none, ⟨connSock (b ++ x :: xs), cs⟩) := by
  simp [stepRun, willRead, connSock, hp, TcpSocket.poll, write_phase, read_phase, hq]

lemma drain_empty (n : Nat) : drainRun ⟨connSock [], []⟩ n = [] := by
  induction n with
  | zero => rfl
  | succ n ih =>
    have hp : process_next_message [] = (none, []) :=
      process_none_of_not_mem (by simp)
    simp [drainRun, stepRun_idle hp, ih]

lemma drain_spec : ∀ (fuel : Nat) (msgs : List (List Nat)) (b : List Nat)
    (cs : List (List Nat)),
    (∀ m ∈ msgs, (0 : Nat) ∉ m) → (∀ c ∈ cs, c ≠ []) →
    b ++ cs.flatten = encode msgs → msgs.length + cs.length ≤ fuel →
    drainRun ⟨connSock b, cs⟩ fuel = msgs := by
  intro fuel
  induction fuel with
  | zero =>
    intro msgs b cs hm hc he hf
    have h1 : msgs = [] := by
      have := List.length_eq_zero.mp (by omega : msgs.length = 0)
      exact this
    subst h1
    rfl
  | succ fuel ih =>
    intro msgs b cs hm hc he hf
    by_cases hz : (0 : Nat) ∈ b
    · cases msgs with
      | nil =>
        exfalso
        simp [encode] at he
        exact absurd (he.1 ▸ hz) (List.not_mem_nil 0)
      | cons m ms =>
        have hm0 : (0 : Nat) ∉ m := hm m (List.mem_cons_self m ms)
        have hms : ∀ y ∈ ms, (0 : Nat) ∉ y := fun y hy => hm y (List.mem_cons_of_mem m hy)
        obtain ⟨b', hbeq, hinv, hproc⟩ := inv_extract hm0 he hz
        simp only [drainRun, stepRun_buffered cs hproc]
        rw [ih ms b' cs hms hc hinv (by simp at hf; omega)]
    · have hpb : process_next_message b = (none, b) := process_none_of_not_mem hz
      cases cs with
      | nil =>
        cases msgs with
        | cons m ms =>
          exfalso
          apply hz
          simp only [List.flatten_nil, List.append_nil] at he
          rw [he, encode_cons]
          exact List.mem_append_right m (List.mem_cons_self 0 _)
        | nil =>
          simp [encode] at he
          subst he
          exact drain_empty (fuel + 1)
      | cons c cs' =>
        have hcne : c ≠ [] := hc c (List.mem_cons_self c cs')
        have hcs' : ∀ y ∈ cs', y ≠ [] := fun y hy => hc y (List.mem_cons_of_mem c hy)
        have hinv2 : (b ++ c) ++ cs'.flatten = encode msgs := by
          rw [List.append_assoc]
          simpa using he
        obtain ⟨x, xs, rfl⟩ : ∃ x xs, c = x :: xs := by
          cases c with
          | nil => exact absurd rfl hcne
          | cons x xs => exact ⟨x, xs, rfl⟩
        by_cases hz2 : (0 : Nat) ∈ b ++ x :: xs
        · cases msgs with
          | nil =>
            exfalso
            simp [encode] at hinv2
          | cons m ms =>
            have hm0 : (0 : Nat) ∉ m := hm m (List.mem_cons_self m ms)
            have hms : ∀ y ∈ ms, (0 : Nat) ∉ y :=
              fun y hy => hm y (List.mem_cons_of_mem m hy)
            obtain ⟨b', hbeq, hinv, hproc⟩ := inv_extract hm0 hinv2 hz2
            simp only [drainRun, stepRun_read_some cs' hpb hproc]
            rw [ih ms b' cs' hms hcs' hinv (by simp at hf; omega)]
        · have hq : process_next_message (b ++ x :: xs) = (none, b ++ x :: xs) :=
            process_none_of_not_mem hz2
          simp only [drainRun, stepRun_read_none cs' hpb hq]
          rw [ih msgs (b ++ x :: xs) cs' hm hcs' hinv2 (by simp at hf; omega)]

/-- C1: framing correctness.  For messages `m1..mk` (none containing the zero
terminator byte, per the framing convention) each followed by a single zero byte,
delivering the concatenation through the socket's read path in arbitrary non-empty
chunk boundaries and repeatedly calling `poll` yields exactly `m1..mk` in order
(zero-length messages included); each tick extracts at most one message — the bytes
before the first zero byte, with the terminator consumed and the rest retained. -/
theorem framing_correct (msgs chunks : List (List Nat)) (fuel : Nat)
    (hm : ∀ m ∈ msgs, (0 : Nat) ∉ m)
    (hc : ∀ c ∈ chunks, c ≠ [])
    (he : chunks.flatten = encode msgs)
    (hf : msgs.length + chunks.length ≤ fuel) :
    drainRun ⟨connSock [], chunks⟩ fuel = msgs :=
  drain_spec fuel msgs [] chunks hm hc (by simpa using he) hf

/-- Closed witness for C1: three messages (the middle one empty) split across three
uneven chunks drain in order. -/
theorem framing_correct_witness :
    drainRun ⟨connSock [], [[1], [2, 0, 0, 3], [0]]⟩ 6 = [[1, 2], [], [3]] :=
  framing_correct [[1, 2], [], [3]] [[1], [2, 0, 0, 3], [0]] 6
    (by decide) (by decide) (by decide) (by decide)

/-! ## Theorems for C2 and C9 -/

/-- C2: closure finality.  (1) once disconnected, every `poll` returns no message and
leaves the socket unchanged; (2) `poll` never transitions Disconnected→Connected;
(3) any tick that ends disconnected (in particular the tick that observes a fatal
outcome) returns no message and reports `is_connected = some false`; (4) a write
error or zero-byte write on a connected socket with pending writes disconnects it;
(5) a read error or zero-byte read (with nothing buffered to extract and nothing
pending to write) disconnects it; (6) over any sequence of subsequent ticks, a
disconnected socket yields no message ever. -/
theorem socket_closure_finality :
    (∀ (s : TcpSocket) (w : WriteEvent) (r : ReadEvent),
      s.connected = false → s.poll w r = (none, s)) ∧
    (∀ (s : TcpSocket) (w : WriteEvent) (r : ReadEvent),
      ((s.poll w r).2).connected = true → s.connected = true) ∧
    (∀ (s : TcpSocket) (w : WriteEvent) (r : ReadEvent),
      ((s.poll w r).2).connected = false →
        (s.poll w r).1 = none ∧ ((s.poll w r).2).is_connected = some false) ∧
    (∀ (s : TcpSocket) (r : ReadEvent), s.connected = true → s.pending_write ≠ [] →
      ((s.poll .writeErr r).2.connected = false ∧ (s.poll (.wrote 0) r).2.connected = false)) ∧
    (∀ (s : TcpSocket) (w : WriteEvent), s.connected = true → s.pending_write = [] →
      (process_next_message s.pending_read).1 = none →
      ((s.poll w .readErr).2.connected = false ∧ (s.poll w (.readOk [])).2.connected = false)) ∧
    (∀ (s : TcpSocket) (evs : List (WriteEvent × ReadEvent)), s.connected = false →
      runPolls s evs = (evs.map (fun _ => none), s)) := by
  refine ⟨?_, ?_, ?_, ?_, ?_, ?_⟩
  · intro s w r h
    exact poll_disconnected h w r
  · intro s w r h
    by_cases hc : s.connected
    · exact hc
    · rw [poll_disconnected (by simpa using hc) w r] at h
      exact h
  · intro s w r h
    exact ⟨poll_fatal_none h, by simp [TcpSocket.is_connected, h]⟩
  · intro s r hc hw
    have hne : s.pending_write.isEmpty = false := by
      simp [List.isEmpty_iff, hw]
    constructor
    · simp [TcpSocket.poll, hc, write_phase, hne]
    · simp [TcpSocket.poll, hc, write_phase, hne]
  · intro s w hc hw hp
    have hp' := process_fst_none hp
    have hws := write_phase_empty hw w
    constructor
    · simp [TcpSocket.poll, hc, hws, read_phase, hp']
    · simp [TcpSocket.poll, hc, hws, read_phase, hp']
  · intro s evs h
    induction evs with
    | nil => rfl
    | cons ev evs ih =>
      rcases ev with ⟨w, r⟩
      simp [runPolls, poll_disconnected h w r, ih]

/-- Closed witness for C2: a disconnected socket ticks to itself with no message. -/
theorem socket_closure_finality_witness :
    TcpSocket.poll ⟨false, [], []⟩ .wouldBlock .wouldBlock = (none, ⟨false, [], []⟩) :=
  socket_closure_finality.1 ⟨false, [], []⟩ .wouldBlock .wouldBlock rfl

/-- C9: `connect` determines only the initial state and never raises: the instance
always exists (`connect_socket` returns `some`), starts with empty buffers, and is
connected exactly when both the blocking connect and the switch to non-blocking
mode succeed. -/
theorem connect_never_errors :
    ∀ (c n : Bool),
      connect_socket c n = some (TcpSocket.connect c n) ∧
      (TcpSocket.connect c n).pending_write = [] ∧
      (TcpSocket.connect c n).pending_read = [] ∧
      (TcpSocket.connect c n).is_connected = some (c && n) := by
  intro c n
  exact ⟨rfl, rfl, rfl, rfl⟩

/-! ## URL model

A structured model of the `url` crate's `Url` as used by this backend.  `path` is
the list of path segments (what `path_segments()` yields; the slash-separated parts
after the leading `/` for URLs that can be a base).  `cannotBeABase` marks URLs such
as `data:` or `javascript:` references whose `path_segments_mut()` returns `Err` and
against which relative references do not resolve; for those, `path` holds the single
opaque-path entry. -/

structure Url where
  scheme : String
  host : Option String
  port : Option Nat
  path : List String
  query : Option String
  fragment : Option String
  cannotBeABase : Bool
deriving DecidableEq, Repr

/-- Parse errors surfaced by the `url` crate's `join` in this model: joining a
non-absolute, non-fragment reference against a cannot-be-a-base base. -/
inductive UrlParseError where
  | relativeUrlWithCannotBeABaseBase
deriving DecidableEq, Repr

/-- A pre-parsed relative reference, as classified by the WHATWG basic URL parser
(the string-to-structure parsing itself is the `url` crate's, external to this
unit). -/
inductive UrlRef where
  | absolute (u : Url)
  | protocolRelative (host : Option String) (port : Option Nat) (path : List String)
      (query : Option String) (fragment : Option String)
  | pathAbsolute (path : List String) (query : Option String) (fragment : Option String)
  | pathRelative (path : List String) (query : Option String) (fragment : Option String)
  | queryOnly (query : String) (fragment : Option String)
  | fragmentOnly (fragment : String)
  | empty
deriving DecidableEq, Repr

/-- One step of the WHATWG path-state dot-segment handling: `..` shortens the
output, `.` is dropped; either adds a trailing empty segment when final. -/
def dotStep (out : List String) (s : String) (isLast : Bool) : List String :=
  if s = ".." then out.dropLast ++ (if isLast then [""] else [])
  else if s = "." then out ++ (if isLast then [""] else [])
  else out ++ [s]

def removeDotAux (out : List String) : List String → List String
  | [] => out
  | [s] => dotStep out s true
  | s :: rest => removeDotAux (dotStep out s false) rest

/-- Dot-segment removal over a segment list (model of the `url` crate's path
normalization during parsing); the path of a special-scheme URL is never empty. -/
def remove_dot_segments (segs : List String) : List String :=
  match removeDotAux [] segs with
  | [] => [""]
  | r => r

/-- Model of `url::Url::join(base, reference)` — standard relative-URL-join
semantics (RFC 3986 section 5.3 / WHATWG): an absolute reference replaces the base;
a fragment-only reference keeps everything but the fragment; other references
require a base that can be a base, and take scheme (and progressively host, path,
query) from it, with relative paths merged against the base path minus its last
segment. -/
def joinUrl (base : Url) (r : UrlRef) : Except UrlParseError Url :=
  match r with
  | .absolute u => .ok u
  | .fragmentOnly f => .ok { base with fragment := some f }
  | .empty => .ok { base with fragment := none }
  | .protocolRelative h p pa q f =>
    if base.cannotBeABase then .error .relativeUrlWithCannotBeABaseBase
    else .ok ⟨base.scheme, h, p, remove_dot_segments pa, q, f, false⟩
  | .pathAbsolute pa q f =>
    if base.cannotBeABase then .error .relativeUrlWithCannotBeABaseBase
    else .ok { base with path := remove_dot_segments pa, query := q, fragment := f }
  | .pathRelative pa q f =>
    if base.cannotBeABase then .error .relativeUrlWithCannotBeABaseBase
    else .ok { base with
                path := remove_dot_segments (base.path.dropLast ++ pa)
                query := q
                fragment := f }
  | .queryOnly q f =>
    if base.cannotBeABase then .error .relativeUrlWithCannotBeABaseBase
    else .ok { base with query := some q, fragment := f }

/-- `url::PathSegmentsMut::pop` in segment terms: truncate at the last slash; on a
single-segment path the result is the root path `[""]`. -/
def seg_pop (segs : List String) : List String :=
  if 2 ≤ segs.length then segs.dropLast else [""]

/-- `url::PathSegmentsMut::pop_if_empty` in segment terms: drop a trailing empty
segment unless the path is just the root. -/
def pop_if_empty (segs : List String) : List String :=
  if 2 ≤ segs.length ∧ segs.getLast? = some "" then segs.dropLast else segs

/-- `url::PathSegmentsMut::push(segment)` in segment terms: a separator slash is
only added when the serialized path is longer than `/`, so pushing onto the root
path replaces its single empty segment. -/
def seg_push (segs : List String) (s : String) : List String :=
  if segs = [""] then [s] else segs ++ [s]

/-- The constructor's base normalization
(`base_url.pop().pop_if_empty().push("")`). -/
def normalize_base_path (segs : List String) : List String :=
  seg_push (pop_if_empty (seg_pop segs)) ""

/-- The `if let Ok(mut base_url) = base_url.path_segments_mut()` block of
`ExternalNavigatorBackend::new`: cannot-be-a-base URLs are left untouched. -/
def navigator_new_base (base : Url) : Url :=
  if base.cannotBeABase then base
  else { base with path := normalize_base_path base.path }

/-- `ExternalNavigatorBackend::pre_process_url`: when the upgrade option is on and
the scheme is exactly `"http"`, set it to `"https"`.  (The `url` crate's
`set_scheme("https")` on an `"http"` URL always succeeds — both are special schemes
with a host — so the `is_err` arm of the source only logs.) -/
def pre_process_url (upgrade_to_https : Bool) (url : Url) : Url :=
  if upgrade_to_https ∧ url.scheme = "http" then { url with scheme := "https" } else url

/-- `OpenURLMode` (ruffle_core): the open-navigation policy. -/
inductive OpenURLMode where
  | Allow
  | Confirm
  | Deny
deriving DecidableEq, Repr

/-- The state of `ExternalNavigatorBackend` that this unit's logic reads: the
normalized base URL, whether `HttpClient::builder().build()` succeeded (`client`
is `Some`), the upgrade flag and the open-URL policy.  The task channel and event
loop are modelled at the `spawn_future` boundary. -/
structure ExternalNavigatorBackend where
  base_url : Url
  has_client : Bool
  upgrade_to_https : Bool
  open_url_mode : OpenURLMode
deriving DecidableEq, Repr

/-- `ExternalNavigatorBackend::new`: builds the client and stores the base with its
last path segment forced to empty (via pop/pop_if_empty/push on its segments). -/
def ExternalNavigatorBackend.new (base_url : Url) (client_build_ok : Bool)
    (upgrade_to_https : Bool) (open_url_mode : OpenURLMode) :
    ExternalNavigatorBackend :=
  { base_url := navigator_new_base base_url
    has_client := client_build_ok
    upgrade_to_https := upgrade_to_https
    open_url_mode := open_url_mode }

/-- `ExternalNavigatorBackend::resolve_url`: join against the stored base, then
apply `pre_process_url`; a join failure is returned as the parse error. -/
def ExternalNavigatorBackend.resolve_url (nav : ExternalNavigatorBackend)
    (url : UrlRef) : Except UrlParseError Url :=
  match joinUrl nav.base_url url with
  | .ok u => .ok (pre_process_url nav.upgrade_to_https u)
  | .error e => .error e

/-- Serialization of a `Url` (model of `Url::to_string` / `as_str`). -/
def renderUrl (u : Url) : String :=
  u.scheme ++ ":" ++
  (match u.host with
   | some h => "//" ++ h ++ (match u.port with | some p => ":" ++ toString p | none => "")
   | none => "") ++
  (if u.cannotBeABase then String.intercalate "/" u.path
   else "/" ++ String.intercalate "/" u.path) ++
  (match u.query with | some q => "?" ++ q | none => "") ++
  (match u.fragment with | some f => "#" ++ f | none => "")

/-- Serialization of a reference as the caller passed it (the `url: &str` argument
before parsing). -/
def renderRef : UrlRef → String
  | .absolute u => renderUrl u
  | .protocolRelative h p pa q f =>
    "//" ++ (match h with | some s => s | none => "") ++
    (match p with | some pr => ":" ++ toString pr | none => "") ++
    "/" ++ String.intercalate "/" pa ++
    (match q with | some s => "?" ++ s | none => "") ++
    (match f with | some s => "#" ++ s | none => "")
  | .pathAbsolute pa q f =>
    "/" ++ String.intercalate "/" pa ++
    (match q with | some s => "?" ++ s | none => "") ++
    (match f with | some s => "#" ++ s | none => "")
  | .pathRelative pa q f =>
    String.intercalate "/" pa ++
    (match q with | some s => "?" ++ s | none => "") ++
    (match f with | some s => "#" ++ s | none => "")
  | .queryOnly q f =>
    "?" ++ q ++ (match f with | some s => "#" ++ s | none => "")
  | .fragmentOnly f => "#" ++ f
  | .empty => ""

/-! ## Fetch service -/

/-- `ruffle_core::loader::Error`, restricted to the variants this unit constructs. -/
inductive LoaderError where
  | FetchError (message : String)
  | HttpNotOk (message : String) (status : Nat) (redirected : Bool)
deriving DecidableEq, Repr

/-- `ruffle_core::backend::navigator::ErrorResponse`. -/
structure ErrorResponse where
  url : String
  error : LoaderError
deriving DecidableEq, Repr

/-- `ruffle_core::backend::navigator::SuccessResponse`. -/
structure SuccessResponse where
  url : String
  body : List Nat
  status : Nat
  redirected : Bool
deriving DecidableEq, Repr

/-- `NavigationMethod` (ruffle_core): the request method. -/
inductive NavigationMethod where
  | Get
  | Post
deriving DecidableEq, Repr

/-- `Request` (ruffle_core): the reference text is carried pre-parsed. -/
structure Request where
  url : UrlRef
  method : NavigationMethod
  headers : List (String × String)
  body : Option (List Nat)
deriving DecidableEq, Repr

/-- Modelled from the spec: `create_fetch_error` lives in `ruffle_core` (outside
this unit); per the spec's error taxonomy it produces the error outcome carrying
the request's URL text and the parse error. -/
def create_fetch_error (url : String) (e : UrlParseError) : ErrorResponse :=
  { url := url
    error := .FetchError
      (match e with
       | .relativeUrlWithCannotBeABaseBase => "relative URL with a cannot-be-a-base base") }

/-- Modelled from the spec: `create_specific_fetch_error` lives in `ruffle_core`;
it produces the failing deferred outcome carrying the reason, the response URL and
the OS-level error text.  (The source reason string for a failed read is spelled
with an apostrophe.) -/
def create_specific_fetch_error (reason : String) (url : String) (detail : String) :
    Except ErrorResponse SuccessResponse :=
  .error { url := url, error := .FetchError (reason ++ ": " ++ detail) }

/-- `url::Url::to_file_path` in this model: defined for `file`-scheme URLs with an
empty or absent host that can be a base; yields the path segments.  (The real one
also percent-decodes, which byte-level modelling omits.) -/
def to_file_path (u : Url) : Except Unit (List String) :=
  if u.scheme = "file" ∧ (u.host = some "" ∨ u.host = none) ∧ u.cannotBeABase = false
  then .ok u.path
  else .error ()

/-- The file branch of `ExternalNavigatorBackend::fetch`.  The filesystem (and the
sandbox consent-and-retry wrapper around `std::fs::read`, which involves dialog
collaborators) is the oracle `fs`, giving the final outcome of reading a path.
The response URL keeps the query; the URL actually converted to a filesystem path
has the query stripped (`processed_url.set_query(None)`). -/
def fetch_file (fs : List String → Except String (List Nat)) (processed_url : Url) :
    Except ErrorResponse SuccessResponse :=
  let response_url := processed_url
  let stripped := { processed_url with query := none }
  match to_file_path stripped with
  | .error _ => create_specific_fetch_error "Unable to create path out of URL"
      (renderUrl response_url) ""
  | .ok path =>
    match fs path with
    | .error e => create_specific_fetch_error "Cannot open file" (renderUrl response_url) e
    | .ok body =>
      .ok { url := renderUrl response_url, body := body, status := 0, redirected := false }

instance exceptDecEq {ε α : Type} [DecidableEq ε] [DecidableEq α] :
    DecidableEq (Except ε α)
  | .error e1, .error e2 =>
    if h : e1 = e2 then isTrue (by rw [h])
    else isFalse (by intro hc; cases hc; exact h rfl)
  | .error _, .ok _ => isFalse (by intro hc; cases hc)
  | .ok _, .error _ => isFalse (by intro hc; cases hc)
  | .ok a1, .ok a2 =>
    if h : a1 = a2 then isTrue (by rw [h])
    else isFalse (by intro hc; cases hc; exact h rfl)

/-- The observable outcome of `client.send_async(..).await` plus the later
`copy_to` body read: the HTTP status, `effective_uri()` (as reported by the HTTP
layer), and the body-buffering outcome. -/
structure HttpResponseModel where
  status : Nat
  effective_uri : Option String
  bodyResult : Except String (List Nat)
deriving DecidableEq, Repr

/-- The URL reported in the outcome: the effective URI when the HTTP layer provides
one, the processed URL otherwise. -/
def effective_url_of (processed_url : Url) (resp : HttpResponseModel) : String :=
  match resp.effective_uri with
  | some uri => uri
  | none => renderUrl processed_url

/-- The non-file branch of `ExternalNavigatorBackend::fetch`.  `send_result` is the
outcome of building and sending the request (header-encoding, body-building and
transport failures all surface as `FetchError` with the processed URL, as in the
source's `map_err` chain).  `status.is_success()` of the `http` crate is the 2xx
range.  `redirected` is `effective_uri().is_some()`. -/
def fetch_http (has_client : Bool) (send_result : Except String HttpResponseModel)
    (processed_url : Url) : Except ErrorResponse SuccessResponse :=
  if has_client then
    match send_result with
    | .error e => .error { url := renderUrl processed_url, error := .FetchError e }
    | .ok response =>
      let url := effective_url_of processed_url response
      let status := response.status
      let redirected := response.effective_uri.isSome
      if ¬ (200 ≤ status ∧ status < 300) then
        .error { url := url
                 error := .HttpNotOk ("HTTP status is not ok, got " ++ toString status)
                          status redirected }
      else
        match response.bodyResult with
        | .error e => .error { url := url, error := .FetchError e }
        | .ok body => .ok { url := url, body := body, status := status, redirected := redirected }
  else .error { url := renderUrl processed_url, error := .FetchError "Network unavailable" }

/-- Outcome of `ExternalNavigatorBackend::fetch`: either the synchronous
early-return (`async_return(create_fetch_error(..))` — an already-resolved value,
no deferred computation), or a deferred computation together with the result it
produces when later driven. -/
inductive FetchOutcome where
  | immediateError (e : ErrorResponse)
  | deferred (result : Except ErrorResponse SuccessResponse)
deriving DecidableEq, Repr

/-- `ExternalNavigatorBackend::fetch`: resolve first (failure is an immediate
error), then dispatch on the resolved scheme. -/
def fetch (nav : ExternalNavigatorBackend) (fs : List String → Except String (List Nat))
    (send_result : Except String HttpResponseModel) (request : Request) : FetchOutcome :=
  match nav.resolve_url request.url with
  | .error e => .immediateError (create_fetch_error (renderRef request.url) e)
  | .ok processed_url =>
    if processed_url.scheme = "file" then .deferred (fetch_file fs processed_url)
    else .deferred (fetch_http nav.has_client send_result processed_url)

/-! ## Navigation (`navigate_to_url`) -/

/-- `Url::query_pairs_mut().append_pair(k, v)` on the query string (modulo the form
percent-encoding, which the byte-level model omits). -/
def append_pair (q : Option String) (k v : String) : Option String :=
  match q with
  | none => some (k ++ "=" ++ v)
  | some s => some (s ++ "&" ++ k ++ "=" ++ v)

/-- The `vars_method` loop of `navigate_to_url`: append each pair to the query. -/
def append_pairs (u : Url) (pairs : List (String × String)) : Url :=
  { u with query := pairs.foldl (fun q kv => append_pair q kv.1 kv.2) u.query }

/-- `modified_url`: the parsed URL, with the `vars_method` query pairs appended
when present. -/
def modified_of (parsed_url : Url)
    (vars_method : Option (NavigationMethod × List (String × String))) : Url :=
  match vars_method with
  | some (_, query_pairs) => append_pairs parsed_url query_pairs
  | none => parsed_url

/-- The observable outcome of `navigate_to_url`: which of its early returns fired,
or that the default-application launcher (`webbrowser::open`) was invoked and on
which URL. -/
inductive NavAction where
  | parseErrorLogged
  | javascriptBlocked
  | confirmDeclined
  | denied
  | opened (url : Url)
deriving DecidableEq, Repr

/-- `ExternalNavigatorBackend::navigate_to_url`.  `user_confirms` is the outcome of
the confirmation dialog collaborator (consulted only in `Confirm` mode). -/
def navigate_to_url (nav : ExternalNavigatorBackend) (url : UrlRef)
    (vars_method : Option (NavigationMethod × List (String × String)))
    (user_confirms : Bool) : NavAction :=
  match nav.resolve_url url with
  | .error _ => .parseErrorLogged
  | .ok parsed_url =>
    let modified_url := modified_of parsed_url vars_method
    if modified_url.scheme = "javascript" then .javascriptBlocked
    else if nav.open_url_mode = OpenURLMode.Confirm then
      if user_confirms then .opened modified_url else .confirmDeclined
    else if nav.open_url_mode = OpenURLMode.Deny then .denied
    else .opened modified_url

/-! ## Task scheduler (`spawn_future`) -/

/-- Observable outcome of `spawn_future`.  Tasks are inert tokens here: spawning
never runs them, it only moves them into the executor's FIFO queue.
`panicked` models `.expect(..)` firing. -/
inductive SpawnOutcome where
  | panicked (message : String)
  | returned (queue : List Nat) (warned_dead_loop : Bool)
deriving DecidableEq, Repr

/-- `ExternalNavigatorBackend::spawn_future`: `channel.send(future).expect("working
channel send")`, then `event_loop.send_event(TaskPoll)`, whose failure (the loop has
ended) is only logged.  `channel_alive` / `event_loop_alive` are the oracles for
the two send outcomes; `queue` is the executor's pending-task queue. -/
def spawn_future (channel_alive : Bool) (event_loop_alive : Bool)
    (queue : List Nat) (future : Nat) : SpawnOutcome :=
  if channel_alive then .returned (queue ++ [future]) (!event_loop_alive)
  else .panicked "working channel send"

/-! ## Spec-side definitions for the resolver claim (C8) -/

/-- The spec's description of the constructor normalization, by its words: the base
location's trailing path segment replaced with an empty segment (cannot-be-a-base
bases have no segments to normalize). -/
def spec_normalize_base (B : Url) : Url :=
  if B.cannotBeABase then B else { B with path := B.path.dropLast ++ [""] }

/-- The spec's description of resolution: standard relative-URL-join semantics
against the normalized base, then the upgrade step. -/
def spec_resolve (B : Url) (upgrade_to_https : Bool) (R : UrlRef) :
    Except UrlParseError Url :=
  (joinUrl (spec_normalize_base B) R).map (pre_process_url upgrade_to_https)

lemma normalize_base_path_eq (segs : List String)
    (hd : segs.dropLast.getLast? ≠ some "") :
    normalize_base_path segs = segs.dropLast ++ [""] := by
  rcases segs with _ | ⟨a, rest⟩
  · rfl
  · rcases rest with _ | ⟨b, t⟩
    · rfl
    · have h1 : seg_pop (a :: b :: t) = (a :: b :: t).dropLast := by
        unfold seg_pop
        rw [if_pos (by simp)]
      have h2 : pop_if_empty ((a :: b :: t).dropLast) = (a :: b :: t).dropLast := by
        unfold pop_if_empty
        rw [if_neg]
        intro hcon
        exact hd hcon.2
      have h3 : seg_push ((a :: b :: t).dropLast) "" = (a :: b :: t).dropLast ++ [""] := by
        unfold seg_push
        rw [if_neg]
        intro hcon
        apply hd
        rw [hcon]
        rfl
      unfold normalize_base_path
      rw [h1, h2, h3]

/-! ## Theorems for the resolver, fetch, navigation and scheduler claims -/

/-- C6: `pre_process_url` is idempotent; it never alters host, port, path, query or
fragment; it leaves any URL whose scheme is not exactly `"http"` unchanged; and the
only scheme change it ever makes is `"http"` to `"https"` (when the upgrade option
is on). -/
theorem pre_process_url_idempotent :
    (∀ (up : Bool) (u : Url),
      pre_process_url up (pre_process_url up u) = pre_process_url up u) ∧
    (∀ (up : Bool) (u : Url),
      (pre_process_url up u).host = u.host ∧ (pre_process_url up u).port = u.port ∧
      (pre_process_url up u).path = u.path ∧ (pre_process_url up u).query = u.query ∧
      (pre_process_url up u).fragment = u.fragment) ∧
    (∀ (up : Bool) (u : Url), u.scheme ≠ "http" → pre_process_url up u = u) ∧
    (∀ (up : Bool) (u : Url),
      (pre_process_url up u).scheme = u.scheme ∨
      (up = true ∧ u.scheme = "http" ∧ (pre_process_url up u).scheme = "https")) := by
  refine ⟨?_, ?_, ?_, ?_⟩
  · intro up u
    unfold pre_process_url
    split_ifs with h1 h2 <;> simp_all
  · intro up u
    unfold pre_process_url
    split_ifs <;> simp
  · intro up u h
    unfold pre_process_url
    rw [if_neg (fun hc => h hc.2)]
  · intro up u
    unfold pre_process_url
    split_ifs with h1
    · exact Or.inr ⟨h1.1, h1.2, rfl⟩
    · exact Or.inl rfl

/-- Closed witness for C6: an already-`https` URL is left unchanged with the
upgrade option on. -/
theorem pre_process_url_idempotent_witness :
    pre_process_url true ⟨"https", some "h", none, [""], none, none, false⟩ =
      ⟨"https", some "h", none, [""], none, none, false⟩ :=
  pre_process_url_idempotent.2.2.1 true _ (by decide)

/-- Counterexample to C3 as stated: the source computes the redirected flag as
`effective_uri().is_some()`, not as a comparison of URLs, so a 404 whose reported
effective URL equals the requested URL (`renderUrl` of the processed URL) still
carries `redirected = true`. -/
theorem http_redirect_flag_counterexample :
    fetch_http true (.ok ⟨404, some "https://example.com/", .ok []⟩)
        ⟨"https", some "example.com", none, [""], none, none, false⟩ =
      .error { url := "https://example.com/"
               error := .HttpNotOk "HTTP status is not ok, got 404" 404 true } ∧
    renderUrl ⟨"https", some "example.com", none, [""], none, none, false⟩ =
      "https://example.com/" := by
  exact ⟨by decide, by decide⟩

/-- C3 (amended): a response status outside the 2xx range (in particular outside
2xx/3xx) is treated as failure, and the error carries the numeric status together
with a redirected flag that is true exactly when the HTTP layer reports an
effective URI for the response; a 404 with no reported effective URI yields status
404 and `redirected = false`; a redirect chain ending in a 200 at a (different)
final URL yields success with `redirected = true` and that final URL. -/
theorem http_status_handling :
    (∀ (pu : Url) (resp : HttpResponseModel),
      resp.status < 200 ∨ 300 ≤ resp.status →
      fetch_http true (.ok resp) pu =
        .error { url := effective_url_of pu resp
                 error := .HttpNotOk ("HTTP status is not ok, got " ++ toString resp.status)
                          resp.status resp.effective_uri.isSome }) ∧
    (∀ (pu : Url) (br : Except String (List Nat)),
      fetch_http true (.ok ⟨404, none, br⟩) pu =
        .error { url := renderUrl pu
                 error := .HttpNotOk ("HTTP status is not ok, got " ++ toString (404 : Nat))
                          404 false }) ∧
    (∀ (pu : Url) (u : String) (body : List Nat),
      fetch_http true (.ok ⟨200, some u, .ok body⟩) pu =
        .ok { url := u, body := body, status := 200, redirected := true }) := by
  refine ⟨?_, ?_, ?_⟩
  · intro pu resp h
    have hs : ¬ (200 ≤ resp.status ∧ resp.status < 300) := by omega
    simp [fetch_http, hs]
  · intro pu br
    have hs : ¬ (200 ≤ 404 ∧ 404 < 300) := by omega
    simp [fetch_http, hs, effective_url_of]
  · intro pu u body
    have hs : (200 ≤ 200 ∧ 200 < 300) := by omega
    simp [fetch_http, hs, effective_url_of]

/-- Closed witness for C3 (amended): a 404 with no reported effective URI. -/
theorem http_status_handling_witness :
    fetch_http true (.ok ⟨404, none, .ok []⟩)
        ⟨"https", some "example.com", none, [""], none, none, false⟩ =
      .error { url := "https://example.com/"
               error := .HttpNotOk "HTTP status is not ok, got 404" 404 false } := by
  have h := http_status_handling.2.1
    ⟨"https", some "example.com", none, [""], none, none, false⟩ (.ok [])
  rw [h]
  decide

/-- C4: a request whose URL fails to resolve against the base yields the parse
error synchronously (`fetch` early-returns the `immediateError` outcome; neither
deferred branch is built). -/
theorem fetch_parse_error_immediate (nav : ExternalNavigatorBackend)
    (fs : List String → Except String (List Nat))
    (send_result : Except String HttpResponseModel) (request : Request)
    (e : UrlParseError) (h : nav.resolve_url request.url = .error e) :
    fetch nav fs send_result request =
      .immediateError (create_fetch_error (renderRef request.url) e) := by
  unfold fetch
  rw [h]

/-- Closed witness for C4: a relative reference against a cannot-be-a-base base. -/
theorem fetch_parse_error_immediate_witness :
    fetch (ExternalNavigatorBackend.new ⟨"data", none, none, ["text,hello"], none, none, true⟩
        true false .Allow)
      (fun _ => .error "fs") (.error "net")
      ⟨.pathRelative ["x"] none none, .Get, [], none⟩ =
      .immediateError (create_fetch_error "x" .relativeUrlWithCannotBeABaseBase) := by
  have h := fetch_parse_error_immediate
    (ExternalNavigatorBackend.new ⟨"data", none, none, ["text,hello"], none, none, true⟩
      true false .Allow)
    (fun _ => .error "fs") (.error "net")
    ⟨.pathRelative ["x"] none none, .Get, [], none⟩
    .relativeUrlWithCannotBeABaseBase (by decide)
  rw [h]
  decide

/-- C5: a file-scheme fetch of a URL with a query succeeds with the file's bytes,
status 0 and `redirected = false`; the response URL keeps the query while the
filesystem path read is produced from the query-stripped URL (and does not depend
on the query at all). -/
theorem file_fetch_query_roundtrip (nav : ExternalNavigatorBackend)
    (fs : List String → Except String (List Nat))
    (send_result : Except String HttpResponseModel) (request : Request)
    (u : Url) (q : String) (B : List Nat)
    (hres : nav.resolve_url request.url = .ok u)
    (hscheme : u.scheme = "file")
    (hhost : u.host = some "" ∨ u.host = none)
    (hcb : u.cannotBeABase = false)
    (hq : u.query = some q) (hf : u.fragment = none)
    (hfs : fs u.path = .ok B) :
    fetch nav fs send_result request =
      .deferred (.ok { url := renderUrl u, body := B, status := 0, redirected := false }) ∧
    renderUrl u = renderUrl { u with query := none } ++ "?" ++ q ∧
    to_file_path { u with query := none } = .ok u.path := by
  have htf : to_file_path { u with query := none } = .ok u.path := by
    unfold to_file_path
    rw [if_pos ⟨hscheme, hhost, hcb⟩]
  refine ⟨?_, ?_, htf⟩
  · have htf2 := htf
    rw [hscheme] at htf2
    simp only [fetch, hres, fetch_file, htf2, hfs, hscheme, if_true]
  · unfold renderUrl
    rw [hq, hf]
    simp [String.append_assoc, String.append_empty]

def witness_file_base : Url := ⟨"file", some "", none, ["tmp", "base.swf"], none, none, false⟩

def witness_file_nav : ExternalNavigatorBackend :=
  ExternalNavigatorBackend.new witness_file_base true false .Allow

def witness_file_req : Request := ⟨.pathRelative ["x.swf"] (some "x=1") none, .Get, [], none⟩

def witness_file_u : Url := ⟨"file", some "", none, ["tmp", "x.swf"], some "x=1", none, false⟩

def witness_file_fs : List String → Except String (List Nat) :=
  fun p => if p = ["tmp", "x.swf"] then .ok [1, 2, 3] else .error "nope"

/-- Closed witness for C5: fetching `file:///tmp/x.swf?x=1` against a file base. -/
theorem file_fetch_query_roundtrip_witness :
    fetch witness_file_nav witness_file_fs (.error "unused") witness_file_req =
      .deferred (.ok { url := renderUrl witness_file_u, body := [1, 2, 3], status := 0,
                       redirected := false }) ∧
    renderUrl witness_file_u = renderUrl { witness_file_u with query := none } ++ "?" ++ "x=1" ∧
    to_file_path { witness_file_u with query := none } = .ok witness_file_u.path :=
  file_fetch_query_roundtrip witness_file_nav witness_file_fs (.error "unused")
    witness_file_req witness_file_u "x=1" [1, 2, 3]
    (by decide) rfl (Or.inl rfl) rfl rfl rfl (by decide)

/-- C7 (amended): with the task channel alive, `spawn_future` appends the task to
the executor's FIFO queue and returns without executing any of it; a dead host
event loop only sets the logged-warning flag — the submission still succeeds. -/
theorem spawn_future_enqueues :
    ∀ (event_loop_alive : Bool) (queue : List Nat) (future : Nat),
      spawn_future true event_loop_alive queue future =
        .returned (queue ++ [future]) (!event_loop_alive) := by
  intro el q t
  rfl

/-- Counterexample to C7 as stated: when the internal task-channel send fails (the
receiver is gone), `spawn_future` panics via `.expect("working channel send")` —
a condition inside `spawn_future` that terminates the hosting process. -/
theorem spawn_future_panic_counterexample :
    spawn_future false true [] 0 = .panicked "working channel send" := rfl

/-- C8 (amended): `resolve_url` equals standard join against the constructor-stored
base followed by the upgrade step; and whenever the base path's second-to-last
segment is not empty (every ordinary base URL), the constructor's
pop/pop_if_empty/push-empty normalization coincides with the spec's "trailing
segment replaced with an empty segment", so resolution matches the spec's
description exactly. -/
theorem resolve_url_matches_spec (B : Url) (client_build_ok upgrade : Bool)
    (mode : OpenURLMode) (R : UrlRef)
    (hd : B.path.dropLast.getLast? ≠ some "") :
    (ExternalNavigatorBackend.new B client_build_ok upgrade mode).resolve_url R =
      spec_resolve B upgrade R := by
  have hbase : navigator_new_base B = spec_normalize_base B := by
    unfold navigator_new_base spec_normalize_base
    by_cases hc : B.cannotBeABase
    · simp [hc]
    · simp [hc, normalize_base_path_eq B.path hd]
  unfold ExternalNavigatorBackend.resolve_url spec_resolve ExternalNavigatorBackend.new
  simp only [hbase]
  cases hj : joinUrl (spec_normalize_base B) R with
  | ok u => rfl
  | error e => rfl

/-- Closed witness for C8 (amended): an ordinary base `/dir/file` with a relative
reference resolves identically under the code and the spec's description. -/
theorem resolve_url_matches_spec_witness :
    (ExternalNavigatorBackend.new ⟨"http", some "h", none, ["dir", "file"], none, none, false⟩
        true false .Allow).resolve_url (.pathRelative ["x"] none none) =
      spec_resolve ⟨"http", some "h", none, ["dir", "file"], none, none, false⟩ false
        (.pathRelative ["x"] none none) :=
  resolve_url_matches_spec ⟨"http", some "h", none, ["dir", "file"], none, none, false⟩
    true false .Allow (.pathRelative ["x"] none none) (by decide)

/-- Counterexample to C8 as stated: for a base whose path is `/a//`, the code's
pop/pop_if_empty/push normalization yields `/a/`, while replacing the trailing
segment with an empty one yields `/a//`; `resolve_url` therefore differs from
standard join against the trailing-replaced base. -/
theorem resolve_url_spec_mismatch :
    (ExternalNavigatorBackend.new ⟨"http", some "h", none, ["a", "", ""], none, none, false⟩
        true false .Allow).resolve_url .empty =
      .ok ⟨"http", some "h", none, ["a", ""], none, none, false⟩ ∧
    spec_resolve ⟨"http", some "h", none, ["a", "", ""], none, none, false⟩ false .empty =
      .ok ⟨"http", some "h", none, ["a", "", ""], none, none, false⟩ ∧
    (ExternalNavigatorBackend.new ⟨"http", some "h", none, ["a", "", ""], none, none, false⟩
        true false .Allow).resolve_url .empty ≠
      spec_resolve ⟨"http", some "h", none, ["a", "", ""], none, none, false⟩ false .empty := by
  exact ⟨by decide, by decide, by decide⟩

/-- C10: when the resolved URL's scheme is exactly `"javascript"`, navigation stops
at the javascript guard — before the policy check, the confirmation dialog and the
launcher — whatever the open-URL policy (including `Allow`) and whatever the dialog
would answer. -/
theorem navigate_javascript_blocked (nav : ExternalNavigatorBackend) (url : UrlRef)
    (vars_method : Option (NavigationMethod × List (String × String)))
    (user_confirms : Bool) (parsed_url : Url)
    (hres : nav.resolve_url url = .ok parsed_url)
    (hjs : parsed_url.scheme = "javascript") :
    navigate_to_url nav url vars_method user_confirms = .javascriptBlocked ∧
    (∀ (mode : OpenURLMode) (confirm2 : Bool),
      navigate_to_url { nav with open_url_mode := mode } url vars_method confirm2 =
        .javascriptBlocked) := by
  have hcond : (modified_of parsed_url vars_method).scheme = "javascript" := by
    have hmod : (modified_of parsed_url vars_method).scheme = parsed_url.scheme := by
      cases vars_method with
      | none => rfl
      | some vm => rfl
    rw [hmod, hjs]
  constructor
  · unfold navigate_to_url
    rw [hres]
    simp only [modified_of] at hcond ⊢
    rw [if_pos hcond]
  · intro mode confirm2
    have hres2 : ({ nav with open_url_mode := mode } :
        ExternalNavigatorBackend).resolve_url url = .ok parsed_url := hres
    unfold navigate_to_url
    rw [hres2]
    simp only [modified_of] at hcond ⊢
    rw [if_pos hcond]

/-- Closed witness for C10: an absolute `javascript:` reference with policy
`Allow`. -/
theorem navigate_javascript_blocked_witness :
    navigate_to_url
      (ExternalNavigatorBackend.new ⟨"http", some "h", none, [""], none, none, false⟩
        true true .Allow)
      (.absolute ⟨"javascript", none, none, ["alert(1)"], none, none, true⟩) none true =
      .javascriptBlocked :=
  (navigate_javascript_blocked
    (ExternalNavigatorBackend.new ⟨"http", some "h", none, [""], none, none, false⟩
      true true .Allow)
    (.absolute ⟨"javascript", none, none, ["alert(1)"], none, none, true⟩) none true
    ⟨"javascript", none, none, ["alert(1)"], none, none, true⟩ (by decide) rfl).1

end RuffleNav
